import Mathlib

/-!
# Verification of the feonancials ledger core

A shallow embedding of the interactive ledger tool's core
(`src/transaction.rs`, `src/tui/app.rs`, `src/tui/mod.rs`,
`src/tui/input_actions.rs`) together with proofs about the
embedded definitions.

Modelling choices, stated once here:

* `chrono::NaiveDate` becomes a `(year, month, day)` record; its `Ord`
  instance is lexicographic, which `Date.leb` mirrors.
* Rust `f64` amounts become `ℚ`.  No claim under scrutiny depends on
  binary floating-point rounding; decimal literals such as `42.50`
  are exactly representable in both.
* The backing file system for month files becomes an association list
  from month keys `(year, month)` to parsed record lists; a key that is
  absent models a file that does not exist.  CSV serialization is
  abstracted away (the store holds structured records), which is
  faithful because the claims never exercise malformed rows.
* Rust functions that can `panic!` (via `expect`, slice indexing, or
  `Vec::remove`) return `Option`/a `panic` result constructor; `none`
  or `panic` marks the panic.
* `usize` underflow (`n - 1` with `n = 0`) wraps modulo `2 ^ 64` as in
  release builds; debug builds would panic instead.  Every statement
  made below about such a site holds in the sense explained at the
  site's doc comment under either semantics.
-/

namespace Feonancials

/-- Calendar date, embedding `chrono::NaiveDate` (`transaction.rs` uses
only its `Ord`, `Datelike` accessors, formatting and parsing). -/
structure Date where
  year : Int
  month : Nat
  day : Nat
  deriving DecidableEq, Repr

/-- Embeds `NaiveDate`'s ordering is lexicographic on (year, month, day);
this is the comparison used by `impl Ord for Transaction`
(`transaction.rs` lines 46-50) via `self.date.cmp(&other.date)`. -/
def Date.leb (a b : Date) : Bool :=
  decide (a.year < b.year ∨ (a.year = b.year ∧
    (a.month < b.month ∨ (a.month = b.month ∧ a.day ≤ b.day))))

theorem Date.leb_refl (a : Date) : Date.leb a a = true := by
  simp [Date.leb]

theorem Date.leb_total (a b : Date) : Date.leb a b = true ∨ Date.leb b a = true := by
  simp only [Date.leb, decide_eq_true_eq]
  omega

theorem Date.leb_trans {a b c : Date} (h1 : Date.leb a b = true)
    (h2 : Date.leb b c = true) : Date.leb a c = true := by
  simp only [Date.leb, decide_eq_true_eq] at h1 h2 ⊢
  omega

/-- The `repeat` tag (`transaction.rs` lines 13-20).  Parsed but never
expanded; it rides along inside `Transaction`. -/
inductive Repeat where
  | day (n : Nat)
  | week (n : Nat)
  | month (n : Nat)
  | year (n : Nat)
  | none
  deriving DecidableEq, Repr

/-- Embeds `Transaction` (`transaction.rs` lines 22-31). -/
structure Transaction where
  date : Date
  amount : ℚ
  description : String
  rep : Repeat
  deriving DecidableEq, Repr

/-- Embeds `impl Default for Transaction` (`transaction.rs` lines 33-42):
today's date, amount `0.0`, empty description, `Repeat::None`.  The
ambient current date is passed explicitly. -/
def Transaction.defaultFor (today : Date) : Transaction :=
  { date := today, amount := 0, description := "", rep := Repeat.none }

/-- The comparison `Vec::sort` uses on transactions: `Ord` compares by
date only (`transaction.rs` lines 46-50). -/
def txLeb (a b : Transaction) : Bool :=
  Date.leb a.date b.date

/-! ## A stable sort

Rust's `Vec::sort` is a stable merge sort driven by `Ord`.  A stable
sort's output is determined by the comparison alone, so we embed it as
a structurally recursive stable insertion sort, which the kernel can
evaluate. -/

/-- Insert `x` before the first element `y` with `le x y`; elements
strictly smaller than `x` are passed over.  Passing over only strictly
smaller elements is what makes the sort stable. -/
def insertBy (le : α → α → Bool) (x : α) : List α → List α
  | [] => [x]
  | y :: ys => if le x y then x :: y :: ys else y :: insertBy le x ys

/-- Stable sort by the Boolean comparison `le`. -/
def sortBy (le : α → α → Bool) (l : List α) : List α :=
  l.foldr (insertBy le) []

theorem insertBy_perm (le : α → α → Bool) (x : α) :
    ∀ l : List α, List.Perm (insertBy le x l) (x :: l)
  | [] => List.Perm.refl _
  | y :: ys => by
    simp only [insertBy]
    split
    · exact List.Perm.refl _
    · exact ((insertBy_perm le x ys).cons y).trans (List.Perm.swap x y ys)

theorem sortBy_perm (le : α → α → Bool) :
    ∀ l : List α, List.Perm (sortBy le l) l
  | [] => List.Perm.refl _
  | x :: xs => by
    simp only [sortBy, List.foldr]
    exact (insertBy_perm le x _).trans ((sortBy_perm le xs).cons x)

theorem mem_insertBy (le : α → α → Bool) (x a : α) (l : List α) :
    a ∈ insertBy le x l ↔ a = x ∨ a ∈ l := by
  rw [(insertBy_perm le x l).mem_iff, List.mem_cons]

theorem pairwise_insertBy (le : α → α → Bool)
    (htot : ∀ a b, le a b = true ∨ le b a = true)
    (htrans : ∀ {a b c}, le a b = true → le b c = true → le a c = true)
    (x : α) :
    ∀ {l : List α}, l.Pairwise (le · · = true) →
      (insertBy le x l).Pairwise (le · · = true)
  | [], _ => by simp [insertBy]
  | y :: ys, h => by
    rcases List.pairwise_cons.mp h with ⟨hy, hys⟩
    simp only [insertBy]
    split
    · rename_i hxy
      refine List.pairwise_cons.mpr ⟨?_, h⟩
      intro b hb
      rcases List.mem_cons.mp hb with rfl | hb
      · exact hxy
      · exact htrans hxy (hy _ hb)
    · rename_i hxy
      have hyx : le y x = true := by
        rcases htot x y with h' | h'
        · exact absurd h' hxy
        · exact h'
      refine List.pairwise_cons.mpr ⟨?_, pairwise_insertBy le htot htrans x hys⟩
      intro b hb
      rcases (mem_insertBy le x b ys).mp hb with rfl | hb
      · exact hyx
      · exact hy _ hb

theorem pairwise_sortBy (le : α → α → Bool)
    (htot : ∀ a b, le a b = true ∨ le b a = true)
    (htrans : ∀ {a b c}, le a b = true → le b c = true → le a c = true) :
    ∀ l : List α, (sortBy le l).Pairwise (le · · = true)
  | [] => by simp [sortBy]
  | x :: xs => by
    simp only [sortBy, List.foldr]
    exact pairwise_insertBy le htot htrans x (pairwise_sortBy le htot htrans xs)

theorem filter_insertBy (le : α → α → Bool) (p : α → Bool)
    (hp : ∀ a b, p a = true → p b = true → le a b = true) (x : α) :
    ∀ l : List α, (insertBy le x l).filter p =
      if p x then x :: l.filter p else l.filter p
  | [] => by by_cases hx : p x <;> simp [insertBy, List.filter, hx]
  | y :: ys => by
    simp only [insertBy]
    split
    · rename_i hxy
      by_cases hx : p x <;> by_cases hy : p y <;>
        simp [List.filter, hx, hy]
    · rename_i hxy
      by_cases hx : p x
      · have hy : p y = false := by
          by_contra hy'
          exact hxy (hp x y hx (by simpa using hy'))
        simp [List.filter, hy, filter_insertBy le p hp x ys, hx]
      · simp only [Bool.not_eq_true] at hx
        by_cases hy : p y <;>
          simp [List.filter, hx, hy, filter_insertBy le p hp x ys]

theorem filter_sortBy (le : α → α → Bool) (p : α → Bool)
    (hp : ∀ a b, p a = true → p b = true → le a b = true) :
    ∀ l : List α, (sortBy le l).filter p = l.filter p
  | [] => rfl
  | x :: xs => by
    have ih := filter_sortBy le p hp xs
    simp only [sortBy, List.foldr] at ih ⊢
    rw [filter_insertBy le p hp x]
    by_cases hx : p x <;> simp [List.filter, hx, ih]

/-- Embeds `transactions.sort()` inside `write_entries`
(`transaction.rs` line 136): stable, ordered by date. -/
def sortTx (l : List Transaction) : List Transaction :=
  sortBy txLeb l

theorem txLeb_total (a b : Transaction) : txLeb a b = true ∨ txLeb b a = true :=
  Date.leb_total a.date b.date

theorem txLeb_trans {a b c : Transaction} (h1 : txLeb a b = true)
    (h2 : txLeb b c = true) : txLeb a c = true :=
  Date.leb_trans h1 h2

/-! ## The ledger store -/

/-- A `(year, month)` pair; `get_filename_from_date`
(`transaction.rs` lines 78-81) maps it to the backing file
`{base}/{year}/{month:0>2}.csv`, so the key identifies the file. -/
abbrev MonthKey := Int × Nat

/-- The month key of a date, as used by `get_filename_from_date`
callers: `(date.year(), date.month())`. -/
def monthKey (d : Date) : MonthKey :=
  (d.year, d.month)

/-- Association-list lookup by month key (models opening
the month's backing file; `none` = the file does not exist). -/
def lookupKey (k : MonthKey) : List (MonthKey × List Transaction) → Option (List Transaction)
  | [] => Option.none
  | (k', v) :: rest => if k' = k then some v else lookupKey k rest

/-- Replace-or-insert by month key (models `csv::Writer::from_path`
truncating/creating the month's backing file). -/
def setKey (k : MonthKey) (v : List Transaction) :
    List (MonthKey × List Transaction) → List (MonthKey × List Transaction)
  | [] => [(k, v)]
  | (k', v') :: rest => if k' = k then (k, v) :: rest else (k', v') :: setKey k v rest

theorem lookupKey_setKey (k : MonthKey) (v : List Transaction) :
    ∀ fs, lookupKey k (setKey k v fs) = some v
  | [] => by simp [setKey, lookupKey]
  | (k', v') :: rest => by
    simp only [setKey]
    split
    · simp [lookupKey]
    · rename_i h
      simp [lookupKey, h, lookupKey_setKey k v rest]

/-- The state the ledger store operates on: the per-month backing
files, plus the ambient current date (`chrono::offset::Local::today`),
which the source reads implicitly. -/
structure World where
  files : List (MonthKey × List Transaction)
  today : Date
  deriving DecidableEq, Repr

/-- Embeds `get_transactions` (`transaction.rs` lines 83-103): a missing file
yields no transactions (lines 87-89); otherwise every record of the
file is returned in file order. -/
def get_transactions (w : World) (k : MonthKey) : List Transaction :=
  (lookupKey k w.files).getD []

/-- Embeds `get_sum_for_month` (`transaction.rs` lines 105-109): fold of the
month's amounts over addition. -/
def get_sum_for_month (w : World) (k : MonthKey) : ℚ :=
  ((get_transactions w k).map Transaction.amount).sum

/-- Embeds `write_entries` (`transaction.rs` lines 131-142): sort the given
records (stable, by date), then write them as the entire new content
of the month's backing file. -/
def write_entries (w : World) (k : MonthKey) (txs : List Transaction) : World :=
  { w with files := setKey k (sortTx txs) w.files }

/-- Embeds `add_transaction` (`transaction.rs` lines 192-198): load the
month of the transaction's date, append, and rewrite through
`write_entries`. -/
def add_transaction (w : World) (t : Transaction) : World :=
  let k := monthKey t.date
  write_entries w k (get_transactions w k ++ [t])

/-- Embeds `write_transactions` (`transaction.rs` lines 144-151): no-op on an
empty vector, else rewrite the month of the first entry's date.  The
caller's vector is sorted in place by `write_entries`, so the sorted
vector is returned alongside the new world. -/
def write_transactions (w : World) (txs : List Transaction) :
    World × List Transaction :=
  match txs with
  | [] => (w, [])
  | t :: _ => (write_entries w (monthKey t.date) txs, sortTx txs)

/-- Embeds `del_entry_by_date` (`transaction.rs` lines 252-257): load the
month of `date`, `Vec::remove(index)`, rewrite.  `Vec::remove` panics
when `index` is out of bounds (modelled by `none`); the panic happens
before `write_entries` runs, so no file is touched in that case. -/
def del_entry_by_date (w : World) (date : Date) (index : Nat) : Option World :=
  let k := monthKey date
  let txs := get_transactions w k
  if index < txs.length then
    some (write_entries w k (txs.eraseIdx index))
  else
    Option.none

theorem get_transactions_write_entries (w : World) (k : MonthKey)
    (txs : List Transaction) :
    get_transactions (write_entries w k txs) k = sortTx txs := by
  simp [get_transactions, write_entries, lookupKey_setKey]

/-! ## Parsing and formatting helpers -/

/-- Numeric value of a digit list (most significant first). -/
def digitsVal (cs : List Char) : Nat :=
  cs.foldl (fun acc c => 10 * acc + (c.toNat - 48)) 0

/-- All-digit check plus value; `none` on the empty list or a
non-digit. -/
def natDigits? (cs : List Char) : Option Nat :=
  if cs ≠ [] ∧ cs.all Char.isDigit then some (digitsVal cs) else Option.none

/-- Split a character list on a separator character, keeping empty
groups, like `str::split`. -/
def splitOnChar (sep : Char) : List Char → List (List Char)
  | [] => [[]]
  | c :: cs =>
    match splitOnChar sep cs with
    | g :: gs => if c = sep then [] :: g :: gs else (c :: g) :: gs
    | [] => if c = sep then [[], []] else [[c]]

/-- Proleptic Gregorian leap year, as `chrono` validates dates. -/
def isLeapYear (y : Nat) : Bool :=
  decide (y % 4 = 0 ∧ (y % 100 ≠ 0 ∨ y % 400 = 0))

/-- Days in a month of the proleptic Gregorian calendar. -/
def daysInMonth (y m : Nat) : Nat :=
  if m = 2 then (if isLeapYear y then 29 else 28)
  else if m = 4 ∨ m = 6 ∨ m = 9 ∨ m = 11 then 30
  else 31

/-- Embeds `date_serializer::string_to_time` (`date_serializer.rs` lines
8-10): `NaiveDate::parse_from_str(s, "%Y-%m-%d")`.  Embedded for the
format actually used: three dash-separated decimal fields, month and
day at most two digits, validated against the Gregorian calendar.
(Signed or seven-plus-digit years, which `chrono` can also consume,
are not produced or consumed anywhere in this program.) -/
def parseDate (s : String) : Option Date :=
  match splitOnChar '-' s.data with
  | [ys, ms, ds] =>
    match natDigits? ys, natDigits? ms, natDigits? ds with
    | some y, some m, some d =>
      if ys.length ≤ 6 ∧ ms.length ≤ 2 ∧ ds.length ≤ 2 ∧
          1 ≤ m ∧ m ≤ 12 ∧ 1 ≤ d ∧ d ≤ daysInMonth y m
      then some ⟨(y : Int), m, d⟩ else Option.none
    | _, _, _ => Option.none
  | _ => Option.none

/-- Embeds `str::parse::<f64>` as used on the guided-entry amount buffer
(`input_actions.rs` lines 20, 54): an optional sign, then a plain
decimal number with at least one digit.  (The exponent / `inf` / `nan`
forms `f64` parsing would also accept never arise from this program's
inputs and are not modelled; every value actually exercised is an
exact decimal, so `ℚ` represents it exactly.) -/
def parseAmount (s : String) : Option ℚ :=
  let withSign : List Char → Int × List Char := fun cs =>
    match cs with
    | '-' :: rest => (-1, rest)
    | '+' :: rest => (1, rest)
    | _ => (1, cs)
  let (sign, cs) := withSign s.data
  let intPart := cs.takeWhile Char.isDigit
  match cs.dropWhile Char.isDigit with
  | [] =>
    if intPart = [] then Option.none
    else some (sign * (digitsVal intPart : ℚ))
  | '.' :: frac =>
    if frac.all Char.isDigit ∧ (intPart ≠ [] ∨ frac ≠ []) then
      some (sign * ((digitsVal intPart : ℚ) + (digitsVal frac : ℚ) / 10 ^ frac.length))
    else Option.none
  | _ => Option.none

/-- Embeds `get_date_or_today` (`transaction.rs` lines 263-271): today's date
when no string is supplied, otherwise `string_to_time`. -/
def get_date_or_today (today : Date) (poss_date : Option String) : Option Date :=
  match poss_date with
  | Option.none => some today
  | some s => parseDate s

/-- Zero-pad a number below 100 to two digits, as `{:0>2}` does in
`get_filename_from_date` and as `NaiveDate` formats months and days. -/
def pad2 (n : Nat) : String :=
  if n < 10 then "0" ++ toString n else toString n

/-- Year formatting of `NaiveDate`'s `Display`: zero-padded to four
digits (the negative and five-plus-digit cases never arise here). -/
def pad4 (y : Int) : String :=
  let n := y.natAbs
  let body :=
    if n < 10 then "000" ++ toString n
    else if n < 100 then "00" ++ toString n
    else if n < 1000 then "0" ++ toString n
    else toString n
  (if y < 0 then "-" else "") ++ body

/-- Embeds `NaiveDate::to_string`, i.e. `%Y-%m-%d` display formatting. -/
def dateToString (d : Date) : String :=
  pad4 d.year ++ "-" ++ pad2 d.month ++ "-" ++ pad2 d.day

/-- Decimal digits of the fractional part `q ∈ [0, 1)`; the fuel bound
cuts off after 30 places (an `f64`'s shortest decimal display, which
this models, always terminates well before that for the amounts this
program handles). -/
def fracDigits : Nat → ℚ → String
  | 0, _ => ""
  | fuel + 1, q =>
    if q = 0 then ""
    else
      let d := Rat.floor (q * 10)
      toString d ++ fracDigits fuel (q * 10 - (d : ℚ))

/-- Embeds `f64`'s `Display` on an amount (`to_string` in
`input_actions.rs` line 50): integral values print with no point,
otherwise the shortest terminating decimal expansion. -/
def amountToString (q : ℚ) : String :=
  let s := if q < 0 then "-" else ""
  let aq := |q|
  let ip := Rat.floor aq
  let fp := aq - (ip : ℚ)
  if fp = 0 then s ++ toString ip
  else s ++ toString ip ++ "." ++ fracDigits 30 fp

/-- Formatting with `{:.2}` of a sum (`get_formatted_sum_for_month`,
`transaction.rs` lines 111-114): two decimal places, rounded to
nearest (the half-way tie direction never matters for the claims). -/
def formatF2 (q : ℚ) : String :=
  let c := Rat.floor (q * 100 + 1 / 2)
  let n := c.natAbs
  (if c < 0 then "-" else "") ++ toString (n / 100) ++ "." ++ pad2 (n % 100)

/-! ## Month listing (`get_months`) -/

/-- One directory entry of the storage tree, with its file stem, as
`fs::read_dir` yields them: either a leaf file or a directory with its
own entries. -/
inductive Entry where
  | file (stem : String)
  | dir (stem : String) (children : List (String × Bool))

/-- The labels contributed by one top-level entry in `get_months`
(`transaction.rs` lines 277-298): plain files are skipped (line 282),
and inside a year directory each child that is itself a directory is
skipped (lines 288-290) while each leaf file contributes
`"{year_stem}-{month_stem}"` (lines 291-296).  A child `(stem, b)`
has `b = true` when it is a directory. -/
def entryMonths : Entry → List String
  | Entry.file _ => []
  | Entry.dir stem children =>
    children.filterMap fun c =>
      if c.2 then Option.none else some (stem ++ "-" ++ c.1)

/-- Byte-wise lexicographic order on strings, the `Ord` that
`Vec::<String>::sort` uses (on UTF-8 it coincides with code-point
order, which this compares). -/
def charListLeb : List Char → List Char → Bool
  | [], _ => true
  | _ :: _, [] => false
  | a :: as, b :: bs =>
    if a.toNat < b.toNat then true
    else if b.toNat < a.toNat then false
    else charListLeb as bs

/-- String comparison for `Vec::<String>::sort`. -/
def strLeb (a b : String) : Bool :=
  charListLeb a.data b.data

theorem charListLeb_total : ∀ as bs : List Char,
    charListLeb as bs = true ∨ charListLeb bs as = true
  | [], _ => Or.inl rfl
  | _ :: _, [] => Or.inr rfl
  | a :: as, b :: bs => by
    simp only [charListLeb]
    rcases Nat.lt_trichotomy a.toNat b.toNat with h | h | h
    · simp [h]
    · simp only [h, Nat.lt_irrefl, if_false]
      exact charListLeb_total as bs
    · simp [h, Nat.lt_asymm h]

theorem charListLeb_trans : ∀ {as bs cs : List Char},
    charListLeb as bs = true → charListLeb bs cs = true →
    charListLeb as cs = true
  | [], _, _, _, _ => rfl
  | _ :: _, [], _, h1, _ => by simp [charListLeb] at h1
  | _ :: _, _ :: _, [], _, h2 => by simp [charListLeb] at h2
  | a :: as, b :: bs, c :: cs, h1, h2 => by
    simp only [charListLeb] at h1 h2 ⊢
    rcases Nat.lt_trichotomy a.toNat c.toNat with h | h | h
    · simp [h]
    · simp only [h, Nat.lt_irrefl, if_false]
      split at h1
      · split at h2
        · omega
        · split at h2
          · exact absurd h2 (by simp)
          · omega
      · split at h1
        · exact absurd h1 (by simp)
        · split at h2
          · omega
          · split at h2
            · exact absurd h2 (by simp)
            · exact charListLeb_trans h1 h2
    · exfalso
      split at h1
      · split at h2
        · omega
        · split at h2
          · exact absurd h2 (by simp)
          · omega
      · split at h1
        · exact absurd h1 (by simp)
        · split at h2
          · omega
          · split at h2
            · exact absurd h2 (by simp)
            · omega

theorem strLeb_total (a b : String) : strLeb a b = true ∨ strLeb b a = true :=
  charListLeb_total a.data b.data

theorem strLeb_trans {a b c : String} (h1 : strLeb a b = true)
    (h2 : strLeb b c = true) : strLeb a c = true :=
  charListLeb_trans h1 h2

/-- Embeds `get_months` (`transaction.rs` lines 273-301).  The storage root is
`none` when the base directory cannot be read: `fs::read_dir(base_path)?`
then propagates the error (line 277).  Otherwise every year
directory's leaf files contribute a label, and the result is sorted
ascending (line 299). -/
def get_months (root : Option (List Entry)) : Except Unit (List String) :=
  match root with
  | Option.none => Except.error ()
  | some entries => Except.ok (sortBy strLeb (entries.map entryMonths).flatten)

/-! ## Session model (`tui/app.rs`) -/

/-- The `YYYY-MM` label of a month key: the year directory's stem and
the month file's stem (`{:0>2}` zero-padded, `transaction.rs` line 80)
joined by `-` exactly as `get_months` rebuilds them. -/
def monthLabel (k : MonthKey) : String :=
  toString k.1 ++ "-" ++ pad2 k.2

/-- The month catalog the TUI sees: `get_months().unwrap_or_default()`
over a storage tree that mirrors `World.files` (one leaf file per
stored month key, each year directory readable).  In this in-sync
world the listing never fails, so `unwrap_or_default` returns the
sorted labels. -/
def worldMonths (w : World) : List String :=
  sortBy strLeb (w.files.map fun kv => monthLabel kv.1)

/-- Embeds `AddState` (`tui/app.rs` lines 14-18). -/
inductive AddState where
  | date
  | amount
  | description
  deriving DecidableEq, Repr

/-- Embeds `UpdateState` (`tui/app.rs` lines 29-33). -/
inductive UpdateState where
  | date
  | amount
  | description
  deriving DecidableEq, Repr

/-- Embeds `ActionState` (`tui/app.rs` lines 7-11). -/
inductive ActionState where
  | normal
  | add (s : AddState) (draft : Transaction)
  | update (s : UpdateState) (draft : Transaction)
  deriving DecidableEq, Repr

/-- Embeds `App` (`tui/app.rs` lines 43-51).  `month_selected` and
`transaction_selected` are the `selected()` contents of the source's
`ListState` / `TableState` cursor widgets, the only part of those
widgets the logic reads or writes. -/
structure App where
  months : List String
  current_month : Date
  month_selected : Option Nat
  transaction_selected : Option Nat
  transactions : List Transaction
  input : String
  state : ActionState
  deriving DecidableEq, Repr

/-- Embeds `App::refresh_months` (`tui/app.rs` lines 60-62):
`get_months().unwrap_or_default()`. -/
def refresh_months (a : App) (w : World) : App :=
  { a with months := worldMonths w }

/-- Embeds `App::refresh_current_month` (`tui/app.rs` lines 72-77): index the
app's month list at the selected cursor, append `-01`, parse.  All
three `expect`s (no selection, index out of bounds via the slice
index, unparseable label) panic, modelled by `none`. -/
def refresh_current_month (a : App) : Option App :=
  match a.month_selected with
  | Option.none => Option.none
  | some idx =>
    match a.months.get? idx with
    | Option.none => Option.none
    | some label =>
      match parseDate (label ++ "-01") with
      | Option.none => Option.none
      | some cm => some { a with current_month := cm }

/-- Embeds `get_selected_month` (`tui/app.rs` lines 101-112): re-read the
month catalog from storage, index it at the selected cursor, append
`-01`.  The `expect`s panic, modelled by `none`. -/
def get_selected_month (w : World) (msel : Option Nat) : Option String :=
  match msel with
  | Option.none => Option.none
  | some idx =>
    match (worldMonths w).get? idx with
    | Option.none => Option.none
    | some label => some (label ++ "-01")

/-- Embeds `get_transactions_for_month` (`transaction.rs` lines 234-242):
parse the date (or today), load that month's file, sort. -/
def get_transactions_for_month (w : World) (poss_date : Option String) :
    Option (List Transaction) :=
  match get_date_or_today w.today poss_date with
  | Option.none => Option.none
  | some d => some (sortTx (get_transactions w (monthKey d)))

/-- Embeds `get_transactions_for_selected_month` (`tui/app.rs` lines
114-120). -/
def get_transactions_for_selected_month (w : World) (msel : Option Nat) :
    Option (List Transaction) :=
  match get_selected_month w msel with
  | Option.none => Option.none
  | some m => get_transactions_for_month w (some m)

/-- Embeds `App::refresh_transactions` (`tui/app.rs` lines 54-58):
`refresh_current_month`, then reload the selected month's list; the
`expect` (and the panics inside `refresh_current_month`) are modelled
by `none`. -/
def refresh_transactions (a : App) (w : World) : Option App :=
  match refresh_current_month a with
  | Option.none => Option.none
  | some a1 =>
    match get_transactions_for_selected_month w a1.month_selected with
    | Option.none => Option.none
    | some txs => some { a1 with transactions := txs }

/-- Embeds `App::set_input_to_sum` (`tui/app.rs` lines 64-70).  In the model
the sum always computes (a missing file sums over the empty list), so
the `Ok` branch is taken. -/
def set_input_to_sum (a : App) (w : World) : App :=
  { a with input := "Sum for current month: " ++
      formatF2 (get_sum_for_month w (monthKey a.current_month)) }

/-- Wrapping `usize` subtraction by one, the release-build semantics
of `n - 1` at `n = 0` (`tui/mod.rs` lines 71, 87, 97, 110 and
`tui/app.rs` line 91).  A debug build panics at those sites instead;
each use below notes that the statement proved is insensitive to the
choice. -/
def usizeSub1 (n : Nat) : Nat :=
  if n = 0 then 2 ^ 64 - 1 else n - 1

/-- Embeds `impl Default for App` (`tui/app.rs` lines 80-98).  The select of
`months.len() - 1` underflows when the catalog is empty: a debug build
panics there, a release build wraps to `2 ^ 64 - 1` and the very next
`refresh_current_month` panics on its out-of-bounds month lookup — so
under either semantics an empty catalog is a panic, modelled by
`none`. -/
def appDefault (w : World) : Option App :=
  let a0 : App :=
    { months := worldMonths w
      current_month := ⟨1970, 1, 1⟩
      month_selected := Option.none
      transaction_selected := Option.none
      transactions := []
      input := ""
      state := ActionState.normal }
  if a0.months.length = 0 then Option.none
  else
    let a1 := { a0 with month_selected := some (a0.months.length - 1) }
    match refresh_current_month a1 with
    | Option.none => Option.none
    | some a2 =>
      let a3 := { a2 with transaction_selected := some 0 }
      let txs := (get_transactions_for_selected_month w a3.month_selected).getD []
      some { a3 with transactions := txs }

/-! ## Interaction loop (`tui/mod.rs`, `tui/input_actions.rs`) -/

/-- One key event, restricted to the codes `run_app` inspects. -/
inductive Key where
  | char (c : Char)
  | esc
  | backspace
  | enter
  | other
  deriving DecidableEq, Repr

/-- Result of processing one key event: the session continues with a
new app and world, `run_app` returns (`q`), or the process panics. -/
inductive StepResult where
  | ok (a : App) (w : World)
  | quit
  | panic
  deriving DecidableEq, Repr

/-- Embeds `input_actions::add_enter` (`input_actions.rs` lines 4-37).
Date step: empty buffer means today; a parse failure keeps the step
and the draft but the buffer is unconditionally cleared (line 16 runs
on both paths).  Amount step: `parse().expect("can get amount")`
panics on failure (line 20); on success the parsed amount is stored in
the draft unnegated (line 21).  Description step: persist through
`add_transaction`, reset to `Normal`, set the success notice, refresh
months and transactions (the refresh `expect`s panic on failure). -/
def add_enter (a : App) (w : World) : StepResult :=
  match a.state with
  | ActionState.add st t =>
    match st with
    | AddState.date =>
      let poss_date := if a.input = "" then Option.none else some a.input
      (match get_date_or_today w.today poss_date with
       | some d =>
         StepResult.ok { a with state := ActionState.add AddState.amount { t with date := d },
                                input := "" } w
       | Option.none => StepResult.ok { a with input := "" } w)
    | AddState.amount =>
      (match parseAmount a.input with
       | some m =>
         StepResult.ok { a with state := ActionState.add AddState.description { t with amount := m },
                                input := "" } w
       | Option.none => StepResult.panic)
    | AddState.description =>
      let t' := { t with description := a.input }
      let w' := add_transaction w t'
      let a1 := { a with state := ActionState.normal, input := "Added entry successfully" }
      let a2 := refresh_months a1 w'
      (match refresh_transactions a2 w' with
       | some a3 => StepResult.ok a3 w'
       | Option.none => StepResult.panic)
  | _ => StepResult.ok a w

/-- Embeds `input_actions::update_enter` (`input_actions.rs` lines 39-72).
Date step: parse failure panics (`expect("can get date")`, line 49);
success seeds the buffer with the draft amount's display.  Amount
step: parse failure panics (line 54); success seeds the buffer with
the draft description.  Description step: overwrite the selected slot
(the indexing panics when nothing is selected or the index is out of
bounds), persist via `write_transactions` (which sorts the in-memory
vector in place), then refresh. -/
def update_enter (a : App) (w : World) : StepResult :=
  match a.state with
  | ActionState.update st t =>
    match st with
    | UpdateState.date =>
      let poss_date := if a.input = "" then Option.none else some a.input
      (match get_date_or_today w.today poss_date with
       | some d =>
         StepResult.ok { a with state := ActionState.update UpdateState.amount { t with date := d },
                                input := amountToString t.amount } w
       | Option.none => StepResult.panic)
    | UpdateState.amount =>
      (match parseAmount a.input with
       | some m =>
         StepResult.ok { a with state := ActionState.update UpdateState.description { t with amount := m },
                                input := t.description } w
       | Option.none => StepResult.panic)
    | UpdateState.description =>
      (match a.transaction_selected with
       | Option.none => StepResult.panic
       | some sel =>
         if sel < a.transactions.length then
           let t' := { t with description := a.input }
           let txs := a.transactions.set sel t'
           let res := write_transactions w txs
           let a1 := { a with transactions := res.2, state := ActionState.normal,
                              input := "Updated entry successfully" }
           let a2 := refresh_months a1 res.1
           (match refresh_transactions a2 res.1 with
            | some a3 => StepResult.ok a3 res.1
            | Option.none => StepResult.panic)
         else StepResult.panic)
  | _ => StepResult.ok a w

/-- One iteration of `run_app`'s event match (`tui/mod.rs` lines
64-167).  Normal mode dispatches on the command characters; any other
key is ignored.  Add/Update mode treats `Esc` as cancel (the input
buffer is left as it is), any character as buffer input, `Backspace`
as buffer pop, and `Enter` as confirm. -/
def step (a : App) (w : World) (k : Key) : StepResult :=
  match a.state with
  | ActionState.normal =>
    match k with
    | Key.char 'q' => StepResult.quit
    | Key.char 'n' =>
      (match a.month_selected with
       | some selected =>
         let n := a.months.length
         let a1 := if selected ≥ usizeSub1 n then { a with month_selected := some 0 }
                   else { a with month_selected := some (selected + 1) }
         (match refresh_transactions a1 w with
          | some a2 => StepResult.ok (set_input_to_sum { a2 with transaction_selected := some 0 } w) w
          | Option.none => StepResult.panic)
       | Option.none => StepResult.ok a w)
    | Key.char 'p' =>
      (match a.month_selected with
       | some selected =>
         let n := a.months.length
         let a1 := if selected > 0 then { a with month_selected := some (selected - 1) }
                   else { a with month_selected := some (usizeSub1 n) }
         (match refresh_transactions a1 w with
          | some a2 => StepResult.ok (set_input_to_sum { a2 with transaction_selected := some 0 } w) w
          | Option.none => StepResult.panic)
       | Option.none => StepResult.ok a w)
    | Key.char 'j' =>
      (match a.transaction_selected with
       | some selected =>
         let n := a.transactions.length
         if selected ≥ usizeSub1 n then StepResult.ok { a with transaction_selected := some 0 } w
         else StepResult.ok { a with transaction_selected := some (selected + 1) } w
       | Option.none => StepResult.ok a w)
    | Key.char 'k' =>
      (match a.transaction_selected with
       | some selected =>
         let n := a.transactions.length
         if selected > 0 then StepResult.ok { a with transaction_selected := some (selected - 1) } w
         else StepResult.ok { a with transaction_selected := some (usizeSub1 n) } w
       | Option.none => StepResult.ok a w)
    | Key.char 'd' =>
      (match a.transaction_selected with
       | some selected =>
         let n := a.transactions.length
         (match del_entry_by_date w a.current_month selected with
          | some w' =>
            let a1 := if n > 1 then
                        (if selected = n - 1 then { a with transaction_selected := some (selected - 1) }
                         else a)
                      else a
            (match refresh_transactions a1 w' with
             | some a2 => StepResult.ok a2 w'
             | Option.none => StepResult.panic)
          | Option.none => StepResult.panic)
       | Option.none => StepResult.ok { a with input := "No entry to delete is selected" } w)
    | Key.char 'a' =>
      StepResult.ok { a with state := ActionState.add AddState.date (Transaction.defaultFor w.today),
                             input := "" } w
    | Key.char 'u' =>
      (match a.transaction_selected with
       | some sel =>
         (match a.transactions.get? sel with
          | some t =>
            StepResult.ok { a with input := dateToString t.date,
                                   state := ActionState.update UpdateState.date t } w
          | Option.none => StepResult.panic)
       | Option.none => StepResult.panic)
    | _ => StepResult.ok a w
  | _ =>
    match k with
    | Key.esc => StepResult.ok { a with state := ActionState.normal } w
    | Key.char c => StepResult.ok { a with input := a.input.push c } w
    | Key.backspace => StepResult.ok { a with input := ⟨a.input.data.dropLast⟩ } w
    | Key.enter =>
      (match a.state with
       | ActionState.add _ _ => add_enter a w
       | ActionState.update _ _ => update_enter a w
       | _ => StepResult.ok a w)
    | _ => StepResult.ok a w

/-- Run a sequence of key events, stopping at quit or panic. -/
def runKeys (a : App) (w : World) : List Key → StepResult
  | [] => StepResult.ok a w
  | k :: ks =>
    match step a w k with
    | StepResult.ok a' w' => runKeys a' w' ks
    | r => r

/-- The key events produced by typing a string character by
character. -/
def keysOf (s : String) : List Key :=
  s.data.map Key.char

/-- The key sequence of one guided add: `a`, type a date, `Enter`,
type an amount, `Enter`, type a description, `Enter`. -/
def addFlowKeys (ds ms desc : String) : List Key :=
  [Key.char 'a'] ++ keysOf ds ++ [Key.enter] ++ keysOf ms ++ [Key.enter]
    ++ keysOf desc ++ [Key.enter]

/-! ## Claims about the ledger store -/

/-- C2: saving a sequence of transactions for a month key fully
replaces the backing file's content (whatever it held before), and a
subsequent load yields exactly the saved transactions sorted ascending
by date, with ties kept in the order they had in the saved sequence
(the per-date filter is untouched), and with no entry gained or
lost. -/
theorem c2_save_load_sorted_stable (w : World) (k : MonthKey) (txs : List Transaction) :
    get_transactions (write_entries w k txs) k = sortTx txs ∧
    (sortTx txs).Pairwise (fun a b => txLeb a b = true) ∧
    (∀ d : Date, (sortTx txs).filter (fun t => decide (t.date = d)) =
      txs.filter (fun t => decide (t.date = d))) ∧
    List.Perm (sortTx txs) txs := by
  refine ⟨get_transactions_write_entries w k txs,
    pairwise_sortBy txLeb txLeb_total txLeb_trans txs, ?_, sortBy_perm txLeb txs⟩
  intro d
  refine filter_sortBy txLeb _ (fun a b ha hb => ?_) txs
  have ha' : a.date = d := of_decide_eq_true ha
  have hb' : b.date = d := of_decide_eq_true hb
  unfold txLeb
  rw [ha', hb']
  exact Date.leb_refl d

/-- C9: a month key with no backing file loads as the empty sequence
(not an error), and its sum of amounts is `0`. -/
theorem c9_missing_file_empty_and_zero_sum (w : World) (k : MonthKey)
    (h : lookupKey k w.files = Option.none) :
    get_transactions w k = [] ∧ get_sum_for_month w k = 0 := by
  constructor
  · simp [get_transactions, h]
  · simp [get_sum_for_month, get_transactions, h]

theorem c9_missing_file_empty_and_zero_sum_witness :
    get_transactions ⟨[], ⟨2023, 1, 1⟩⟩ ((2024 : Int), 5) = [] ∧
    get_sum_for_month ⟨[], ⟨2023, 1, 1⟩⟩ ((2024 : Int), 5) = 0 :=
  c9_missing_file_empty_and_zero_sum ⟨[], ⟨2023, 1, 1⟩⟩ ((2024 : Int), 5) rfl

/-- C5, as the code actually behaves: a delete whose index is out of
range for the month's current list panics inside `Vec::remove`
(modelled by the `none` result).  The panic happens before
`write_entries` runs, so the backing file is left exactly as it was;
but no `IndexOutOfRange` error value is reported — the process dies
instead of the session continuing with an error message. -/
theorem c5_out_of_range_delete_panics (w : World) (d : Date) (i : Nat)
    (h : (get_transactions w (monthKey d)).length ≤ i) :
    del_entry_by_date w d i = Option.none := by
  simp only [del_entry_by_date]
  rw [if_neg (by omega)]

theorem c5_out_of_range_delete_panics_witness :
    del_entry_by_date ⟨[], ⟨2023, 9, 20⟩⟩ ⟨2023, 9, 15⟩ 5 = Option.none :=
  c5_out_of_range_delete_panics ⟨[], ⟨2023, 9, 20⟩⟩ ⟨2023, 9, 15⟩ 5 (by decide)

/-- C5's claim, refuted at a concrete input: deleting index `0` of a
month whose list is empty does not return (with an error report or
otherwise) — `Vec::remove` panics, modelled by `none`.  No
`IndexOutOfRange` error value exists anywhere in this code path. -/
theorem c5_reports_error_counterexample :
    del_entry_by_date ⟨[], ⟨2023, 9, 20⟩⟩ ⟨2023, 9, 15⟩ 0 = Option.none := rfl

/-- C7, as the code actually behaves: over a readable storage root,
`get_months` yields exactly one `YYYY-MM` label per leaf file inside a
year subdirectory (plain files at the root and directories nested in a
year directory are skipped), sorted ascending, and an empty root
yields the empty list; but a root that cannot be read at all is an
`Err` from `fs::read_dir(base_path)?`, not an empty list — the
callers (`App::default`, `App::refresh_months`) degrade that error to
an empty catalog via `unwrap_or_default`. -/
theorem c7_get_months_sorted_labels :
    (∀ es : List Entry,
      get_months (some es) =
        Except.ok (sortBy strLeb (es.map entryMonths).flatten) ∧
      (sortBy strLeb (es.map entryMonths).flatten).Pairwise
        (fun a b => strLeb a b = true) ∧
      List.Perm (sortBy strLeb (es.map entryMonths).flatten)
        (es.map entryMonths).flatten) ∧
    get_months (some []) = Except.ok [] ∧
    get_months Option.none = Except.error () :=
  ⟨fun _ => ⟨rfl, pairwise_sortBy strLeb strLeb_total strLeb_trans _,
    sortBy_perm strLeb _⟩, rfl, rfl⟩

/-- C7's claim, refuted at a concrete input: on a missing storage root
`get_months` returns an error, not an empty sequence. -/
theorem c7_missing_root_counterexample :
    get_months Option.none = Except.error () := rfl

/-! ## Helper lemmas about the session transitions -/

theorem refresh_current_month_fields {a a' : App}
    (h : refresh_current_month a = some a') :
    a'.state = a.state ∧ a'.month_selected = a.month_selected ∧
    a'.transaction_selected = a.transaction_selected ∧
    a'.input = a.input ∧ a'.months = a.months ∧
    a'.transactions = a.transactions := by
  unfold refresh_current_month at h
  split at h
  · exact absurd h (by simp)
  · split at h
    · exact absurd h (by simp)
    · split at h
      · exact absurd h (by simp)
      · rw [Option.some_inj] at h
        subst h
        exact ⟨rfl, rfl, rfl, rfl, rfl, rfl⟩

theorem refresh_transactions_fields {a : App} {w : World} {a' : App}
    (h : refresh_transactions a w = some a') :
    a'.state = a.state ∧ a'.month_selected = a.month_selected ∧
    a'.transaction_selected = a.transaction_selected ∧
    a'.input = a.input ∧ a'.months = a.months := by
  unfold refresh_transactions at h
  split at h
  · exact absurd h (by simp)
  · rename_i a1 hr
    split at h
    · exact absurd h (by simp)
    · rw [Option.some_inj] at h
      subst h
      obtain ⟨h1, h2, h3, h4, h5, _⟩ := refresh_current_month_fields hr
      exact ⟨h1, h2, h3, h4, h5⟩

theorem step_char_editing {a : App} (w : World) (c : Char)
    (h : a.state ≠ ActionState.normal) :
    step a w (Key.char c) = StepResult.ok { a with input := a.input.push c } w := by
  cases hs : a.state with
  | normal => exact absurd hs h
  | add st t => simp [step, hs]
  | update st t => simp [step, hs]

theorem runKeys_type_chars : ∀ (cs : List Char) (a : App) (w : World) (rest : List Key),
    a.state ≠ ActionState.normal →
    runKeys a w (cs.map Key.char ++ rest) =
      runKeys { a with input := ⟨a.input.data ++ cs⟩ } w rest
  | [], a, w, rest, _ => by
    simp only [List.map_nil, List.nil_append, List.append_nil]
  | c :: cs, a, w, rest, h => by
    have ih := runKeys_type_chars cs { a with input := a.input.push c } w rest
      (by simpa using h)
    simp only [List.map_cons, List.cons_append, runKeys, step_char_editing w c h]
    refine Eq.trans ih ?_
    have hd : (a.input.push c).data ++ cs = a.input.data ++ c :: cs := by
      simp
    rw [hd]

/-! ## Claims about the interactive session -/

/-- C10: `App::default` presupposes a non-empty month catalog.  With
zero months the `months.len() - 1` select underflows (debug builds
panic there; release builds wrap, and the immediately following
selected-month lookup inside `refresh_current_month` panics), so
initialization fails rather than producing a Normal-mode session; and
every successful initialization has a non-empty catalog, is in Normal
mode, and has the last (most recent) month selected. -/
theorem c10_default_requires_nonempty_catalog (w : World) :
    (worldMonths w = [] → appDefault w = Option.none) ∧
    ∀ a : App, appDefault w = some a →
      worldMonths w ≠ [] ∧ a.state = ActionState.normal ∧
      a.month_selected = some ((worldMonths w).length - 1) := by
  constructor
  · intro h
    simp [appDefault, h]
  · intro a ha
    simp only [appDefault] at ha
    split at ha
    · exact absurd ha (by simp)
    · rename_i hlen
      refine ⟨fun h => hlen (by rw [h]; rfl), ?_⟩
      split at ha
      · exact absurd ha (by simp)
      · rename_i a2 hr
        rw [Option.some_inj] at ha
        subst ha
        obtain ⟨h1, h2, _, _, _, _⟩ := refresh_current_month_fields hr
        exact ⟨h1, h2⟩

theorem c10_default_requires_nonempty_catalog_witness :
    appDefault ⟨[], ⟨2023, 1, 1⟩⟩ = Option.none :=
  (c10_default_requires_nonempty_catalog ⟨[], ⟨2023, 1, 1⟩⟩).1 rfl

/-- C8, as the code actually behaves: `Esc` in any Adding/Updating
step discards the draft (it lives only in the mode payload) and
returns to Normal, but leaves the input buffer exactly as it was —
`tui/mod.rs` lines 153-155 assign only `app.state`; nothing clears
`app.input`. -/
theorem c8_cancel_keeps_buffer (a : App) (w : World)
    (h : a.state ≠ ActionState.normal) :
    step a w Key.esc = StepResult.ok { a with state := ActionState.normal } w := by
  cases hs : a.state with
  | normal => exact absurd hs h
  | add st t => simp [step, hs]
  | update st t => simp [step, hs]

theorem c8_cancel_keeps_buffer_witness :
    step ⟨["2023-09"], ⟨2023, 9, 1⟩, some 0, some 0, [], "draft text",
        ActionState.add AddState.amount ⟨⟨2023, 9, 20⟩, 0, "", Repeat.none⟩⟩
      ⟨[], ⟨2023, 9, 20⟩⟩ Key.esc =
    StepResult.ok ⟨["2023-09"], ⟨2023, 9, 1⟩, some 0, some 0, [], "draft text",
        ActionState.normal⟩ ⟨[], ⟨2023, 9, 20⟩⟩ :=
  c8_cancel_keeps_buffer _ _ (by decide)

/-- C8's claim, refuted at a concrete input: after `Esc` from an
Adding step with buffer `"abc"`, the buffer still holds `"abc"`; it
was not emptied. -/
theorem c8_buffer_emptied_counterexample :
    step ⟨[], ⟨2023, 9, 1⟩, some 0, some 0, [], "abc",
        ActionState.add AddState.date ⟨⟨2023, 9, 20⟩, 0, "", Repeat.none⟩⟩
      ⟨[], ⟨2023, 9, 20⟩⟩ Key.esc =
    StepResult.ok ⟨[], ⟨2023, 9, 1⟩, some 0, some 0, [], "abc",
        ActionState.normal⟩ ⟨[], ⟨2023, 9, 20⟩⟩ ∧
    ("abc" : String) ≠ "" :=
  ⟨rfl, by decide⟩

/-- C4, as the code actually behaves: confirming the Adding(Date) step
with a non-empty buffer that does not parse keeps the machine in the
Date step with the draft untouched, but the buffer is cleared —
`input_actions.rs` line 16 runs on the failure path too — so the typed
text is lost rather than kept for editing. -/
theorem c4_date_parse_failure_clears_buffer (a : App) (w : World) (t : Transaction)
    (hs : a.state = ActionState.add AddState.date t)
    (hne : a.input ≠ "")
    (hp : parseDate a.input = Option.none) :
    step a w Key.enter = StepResult.ok { a with input := "" } w := by
  simp only [step, hs, add_enter]
  rw [if_neg hne]
  simp [get_date_or_today, hp]

theorem c4_date_parse_failure_clears_buffer_witness :
    step ⟨[], ⟨2023, 9, 1⟩, some 0, some 0, [], "xyz",
        ActionState.add AddState.date ⟨⟨2023, 9, 20⟩, 0, "", Repeat.none⟩⟩
      ⟨[], ⟨2023, 9, 20⟩⟩ Key.enter =
    StepResult.ok ⟨[], ⟨2023, 9, 1⟩, some 0, some 0, [], "",
        ActionState.add AddState.date ⟨⟨2023, 9, 20⟩, 0, "", Repeat.none⟩⟩
      ⟨[], ⟨2023, 9, 20⟩⟩ :=
  c4_date_parse_failure_clears_buffer _ _ _ rfl (by decide) (by decide)

/-- C4's claim, refuted at a concrete input: with buffer `"oops"`, the
confirm stays in Adding(Date) but the resulting buffer is `""`, not
the typed `"oops"`. -/
theorem c4_buffer_kept_counterexample :
    step ⟨[], ⟨2023, 9, 1⟩, some 0, some 0, [], "oops",
        ActionState.add AddState.date ⟨⟨2023, 9, 20⟩, 0, "", Repeat.none⟩⟩
      ⟨[], ⟨2023, 9, 20⟩⟩ Key.enter =
    StepResult.ok ⟨[], ⟨2023, 9, 1⟩, some 0, some 0, [], "",
        ActionState.add AddState.date ⟨⟨2023, 9, 20⟩, 0, "", Repeat.none⟩⟩
      ⟨[], ⟨2023, 9, 20⟩⟩ ∧
    ("" : String) ≠ "oops" :=
  ⟨rfl, by decide⟩

/-- C3, as the code actually behaves: confirming the Amount step of
Adding or Updating with a buffer that does not parse as a signed
decimal panics — `parse().expect("can get amount")`
(`input_actions.rs` lines 20 and 54) — terminating the interactive
session rather than reporting the failure and continuing. -/
theorem c3_amount_parse_failure_panics (a : App) (w : World)
    (h : (∃ t, a.state = ActionState.add AddState.amount t) ∨
         (∃ t, a.state = ActionState.update UpdateState.amount t))
    (hp : parseAmount a.input = Option.none) :
    step a w Key.enter = StepResult.panic := by
  rcases h with ⟨t, hs⟩ | ⟨t, hs⟩ <;>
    simp [step, hs, add_enter, update_enter, hp]

theorem c3_amount_parse_failure_panics_witness :
    step ⟨[], ⟨2023, 9, 1⟩, some 0, some 0, [], "abc",
        ActionState.add AddState.amount ⟨⟨2023, 9, 20⟩, 0, "", Repeat.none⟩⟩
      ⟨[], ⟨2023, 9, 20⟩⟩ Key.enter = StepResult.panic :=
  c3_amount_parse_failure_panics _ _
    (Or.inl ⟨⟨⟨2023, 9, 20⟩, 0, "", Repeat.none⟩, rfl⟩) (by decide)

/-- C3's claim, refuted at a concrete input: with the unparseable
buffer `"12,5"` in Updating(Amount), the confirm panics (the session
terminates); it does not continue running. -/
theorem c3_session_continues_counterexample :
    step ⟨[], ⟨2023, 9, 1⟩, some 0, some 0, [], "12,5",
        ActionState.update UpdateState.amount ⟨⟨2023, 9, 20⟩, 0, "", Repeat.none⟩⟩
      ⟨[], ⟨2023, 9, 20⟩⟩ Key.enter = StepResult.panic := rfl

/-- C6: in Normal mode with an empty transaction list (and the cursor
at `Some(0)`, exactly the state `App::default` and month navigation
leave for a month whose file has no rows), `j` and `k` are not no-ops:
the code computes `amount_transactions - 1` with
`amount_transactions = 0`, so a release build wraps — `j` moves the
cursor to index `1` and `k` to index `2 ^ 64 - 1` of the empty list —
and a debug build panics at the subtraction.  Under neither semantics
is the session state unchanged as the spec requires. -/
theorem c6_empty_list_navigation_underflows :
    step ⟨["2023-09"], ⟨2023, 9, 1⟩, some 0, some 0, [], "", ActionState.normal⟩
        ⟨[(((2023 : Int), 9), [])], ⟨2023, 9, 20⟩⟩ (Key.char 'j') =
      StepResult.ok
        ⟨["2023-09"], ⟨2023, 9, 1⟩, some 0, some 1, [], "", ActionState.normal⟩
        ⟨[(((2023 : Int), 9), [])], ⟨2023, 9, 20⟩⟩ ∧
    step ⟨["2023-09"], ⟨2023, 9, 1⟩, some 0, some 0, [], "", ActionState.normal⟩
        ⟨[(((2023 : Int), 9), [])], ⟨2023, 9, 20⟩⟩ (Key.char 'k') =
      StepResult.ok
        ⟨["2023-09"], ⟨2023, 9, 1⟩, some 0, some (2 ^ 64 - 1), [], "", ActionState.normal⟩
        ⟨[(((2023 : Int), 9), [])], ⟨2023, 9, 20⟩⟩ ∧
    (some 1 : Option Nat) ≠ some 0 :=
  ⟨by decide, by decide, by decide⟩

/-! ## The guided add flow (C1) -/

theorem step_normal_a (a : App) (w : World) (hn : a.state = ActionState.normal) :
    step a w (Key.char 'a') =
      StepResult.ok { a with
        state := ActionState.add AddState.date (Transaction.defaultFor w.today),
        input := "" } w := by
  simp [step, hn]

theorem add_enter_date_ok (a : App) (w : World) (t : Transaction) (d : Date)
    (hs : a.state = ActionState.add AddState.date t)
    (hne : a.input ≠ "") (hd : parseDate a.input = some d) :
    step a w Key.enter =
      StepResult.ok { a with
        state := ActionState.add AddState.amount { t with date := d },
        input := "" } w := by
  simp only [step, hs, add_enter]
  rw [if_neg hne]
  simp [get_date_or_today, hd]

theorem add_enter_amount_ok (a : App) (w : World) (t : Transaction) (m : ℚ)
    (hs : a.state = ActionState.add AddState.amount t)
    (hm : parseAmount a.input = some m) :
    step a w Key.enter =
      StepResult.ok { a with
        state := ActionState.add AddState.description { t with amount := m },
        input := "" } w := by
  simp [step, hs, add_enter, hm]

theorem add_enter_description_eq (a : App) (w : World) (t : Transaction)
    (hs : a.state = ActionState.add AddState.description t) :
    step a w Key.enter =
      (match refresh_transactions
          (refresh_months
            { a with state := ActionState.normal, input := "Added entry successfully" }
            (add_transaction w { t with description := a.input }))
          (add_transaction w { t with description := a.input }) with
       | some a3 => StepResult.ok a3 (add_transaction w { t with description := a.input })
       | Option.none => StepResult.panic) := by
  simp [step, hs, add_enter, refresh_months]

theorem get_transactions_add_transaction (w : World) (t : Transaction) :
    get_transactions (add_transaction w t) (monthKey t.date) =
      sortTx (get_transactions w (monthKey t.date) ++ [t]) := by
  simp only [add_transaction]
  exact get_transactions_write_entries w (monthKey t.date) _

theorem runKeys_enter_description (a : App) (w : World) (t : Transaction)
    (a' : App) (w' : World)
    (hs : a.state = ActionState.add AddState.description t)
    (hrun : runKeys a w [Key.enter] = StepResult.ok a' w') :
    w' = add_transaction w { t with description := a.input } ∧
    refresh_transactions
      (refresh_months
        { a with state := ActionState.normal, input := "Added entry successfully" }
        (add_transaction w { t with description := a.input }))
      (add_transaction w { t with description := a.input }) = some a' := by
  cases hX : refresh_transactions
      (refresh_months
        { a with state := ActionState.normal, input := "Added entry successfully" }
        (add_transaction w { t with description := a.input }))
      (add_transaction w { t with description := a.input }) with
  | none =>
    have h7 : step a w Key.enter = StepResult.panic := by
      rw [add_enter_description_eq a w t hs, hX]
    simp only [runKeys, h7] at hrun
    exact absurd hrun (by simp)
  | some a3 =>
    have h7 : step a w Key.enter =
        StepResult.ok a3 (add_transaction w { t with description := a.input }) := by
      rw [add_enter_description_eq a w t hs, hX]
    simp only [runKeys, h7, StepResult.ok.injEq] at hrun
    obtain ⟨h8, h9⟩ := hrun
    exact ⟨h9.symm, by rw [h8]⟩

/-- C1, as the code actually behaves: a completed guided add sequence
(`a`, type a parseable non-empty date string, `Enter`, type a
parseable amount string, `Enter`, type a description, `Enter`)
persists the transaction with the amount **exactly as entered** — the
TUI's `add_enter` stores the parsed value unnegated
(`input_actions.rs` line 21); only the separate CLI `add` path negates
(`transaction.rs` line 211).  The flow ends in Normal mode, and the
month's file afterwards holds the previous entries plus the new
transaction `{date, amount m, description}`, re-sorted. -/
theorem c1_add_stores_amount_unnegated (a : App) (w : World)
    (ds ms desc : String) (d : Date) (m : ℚ) (a' : App) (w' : World)
    (hn : a.state = ActionState.normal)
    (hne : ds ≠ "")
    (hd : parseDate ds = some d)
    (hm : parseAmount ms = some m)
    (hrun : runKeys a w (addFlowKeys ds ms desc) = StepResult.ok a' w') :
    w' = add_transaction w ⟨d, m, desc, Repeat.none⟩ ∧
    get_transactions w' (monthKey d) =
      sortTx (get_transactions w (monthKey d) ++ [⟨d, m, desc, Repeat.none⟩]) ∧
    a'.state = ActionState.normal := by
  have e0 : addFlowKeys ds ms desc =
      Key.char 'a' :: (ds.data.map Key.char ++ (Key.enter :: (ms.data.map Key.char ++
        (Key.enter :: (desc.data.map Key.char ++ [Key.enter]))))) := by
    simp [addFlowKeys, keysOf]
  rw [e0] at hrun
  have h1 :
      runKeys a w (Key.char 'a' :: (ds.data.map Key.char ++ (Key.enter ::
          (ms.data.map Key.char ++ (Key.enter :: (desc.data.map Key.char ++ [Key.enter])))))) =
      runKeys { a with state := ActionState.add AddState.date (Transaction.defaultFor w.today),
                       input := "" } w
        (ds.data.map Key.char ++ (Key.enter ::
          (ms.data.map Key.char ++ (Key.enter :: (desc.data.map Key.char ++ [Key.enter]))))) := by
    simp only [runKeys, step_normal_a a w hn]
  rw [h1] at hrun
  have h2 :
      runKeys { a with state := ActionState.add AddState.date (Transaction.defaultFor w.today),
                       input := "" } w
        (ds.data.map Key.char ++ (Key.enter ::
          (ms.data.map Key.char ++ (Key.enter :: (desc.data.map Key.char ++ [Key.enter]))))) =
      runKeys { a with state := ActionState.add AddState.date (Transaction.defaultFor w.today),
                       input := ds } w
        (Key.enter :: (ms.data.map Key.char ++
          (Key.enter :: (desc.data.map Key.char ++ [Key.enter])))) :=
    runKeys_type_chars ds.data _ w _ (by simp)
  rw [h2] at hrun
  have h3 :
      runKeys { a with state := ActionState.add AddState.date (Transaction.defaultFor w.today),
                       input := ds } w
        (Key.enter :: (ms.data.map Key.char ++
          (Key.enter :: (desc.data.map Key.char ++ [Key.enter])))) =
      runKeys { a with state := ActionState.add AddState.amount
                         { Transaction.defaultFor w.today with date := d },
                       input := "" } w
        (ms.data.map Key.char ++ (Key.enter :: (desc.data.map Key.char ++ [Key.enter]))) := by
    simp only [runKeys,
      add_enter_date_ok
        { a with state := ActionState.add AddState.date (Transaction.defaultFor w.today),
                 input := ds } w (Transaction.defaultFor w.today) d rfl hne hd]
  rw [h3] at hrun
  have h4 :
      runKeys { a with state := ActionState.add AddState.amount
                         { Transaction.defaultFor w.today with date := d },
                       input := "" } w
        (ms.data.map Key.char ++ (Key.enter :: (desc.data.map Key.char ++ [Key.enter]))) =
      runKeys { a with state := ActionState.add AddState.amount
                         { Transaction.defaultFor w.today with date := d },
                       input := ms } w
        (Key.enter :: (desc.data.map Key.char ++ [Key.enter])) :=
    runKeys_type_chars ms.data _ w _ (by simp)
  rw [h4] at hrun
  have h5 :
      runKeys { a with state := ActionState.add AddState.amount
                         { Transaction.defaultFor w.today with date := d },
                       input := ms } w
        (Key.enter :: (desc.data.map Key.char ++ [Key.enter])) =
      runKeys { a with state := ActionState.add AddState.description
                         { Transaction.defaultFor w.today with date := d, amount := m },
                       input := "" } w
        (desc.data.map Key.char ++ [Key.enter]) := by
    simp only [runKeys,
      add_enter_amount_ok
        { a with state := ActionState.add AddState.amount
                   { Transaction.defaultFor w.today with date := d },
                 input := ms } w
        { Transaction.defaultFor w.today with date := d } m rfl hm]
  rw [h5] at hrun
  have h6 :
      runKeys { a with state := ActionState.add AddState.description
                         { Transaction.defaultFor w.today with date := d, amount := m },
                       input := "" } w
        (desc.data.map Key.char ++ [Key.enter]) =
      runKeys { a with state := ActionState.add AddState.description
                         { Transaction.defaultFor w.today with date := d, amount := m },
                       input := desc } w
        [Key.enter] :=
    runKeys_type_chars desc.data _ w _ (by simp)
  rw [h6] at hrun
  obtain ⟨hw', href⟩ := runKeys_enter_description
    { a with state := ActionState.add AddState.description
               { Transaction.defaultFor w.today with date := d, amount := m },
             input := desc } w
    { Transaction.defaultFor w.today with date := d, amount := m } a' w' rfl hrun
  refine ⟨hw', ?_, ?_⟩
  · rw [hw']
    exact get_transactions_add_transaction w
      { Transaction.defaultFor w.today with date := d, amount := m, description := desc }
  · exact (refresh_transactions_fields href).1

/-- C1's claim, refuted at a concrete input: from Normal mode over an
empty store, the guided sequence `a`, `"2023-09-15"`, `Enter`,
`"42.50"`, `Enter`, `"coffee"`, `Enter` persists a transaction with
amount `42.50` — the amount as entered, not its negation `-42.50`. -/
theorem c1_add_negation_counterexample :
    runKeys ⟨[], ⟨2023, 9, 1⟩, some 0, some 0, [], "", ActionState.normal⟩
        ⟨[], ⟨2023, 9, 20⟩⟩ (addFlowKeys "2023-09-15" "42.50" "coffee") =
      StepResult.ok
        ⟨["2023-09"], ⟨2023, 9, 1⟩, some 0, some 0,
          [⟨⟨2023, 9, 15⟩, (85 : ℚ) / 2, "coffee", Repeat.none⟩],
          "Added entry successfully", ActionState.normal⟩
        ⟨[(((2023 : Int), 9), [⟨⟨2023, 9, 15⟩, (85 : ℚ) / 2, "coffee", Repeat.none⟩])],
          ⟨2023, 9, 20⟩⟩ ∧
    ((85 : ℚ) / 2) ≠ -((85 : ℚ) / 2) :=
  ⟨by with_unfolding_all rfl, by with_unfolding_all decide⟩

theorem c1_add_stores_amount_unnegated_witness :
    (⟨[(((2023 : Int), 9), [⟨⟨2023, 9, 15⟩, (85 : ℚ) / 2, "coffee", Repeat.none⟩])],
        ⟨2023, 9, 20⟩⟩ : World) =
      add_transaction ⟨[], ⟨2023, 9, 20⟩⟩ ⟨⟨2023, 9, 15⟩, (85 : ℚ) / 2, "coffee", Repeat.none⟩ ∧
    get_transactions
        ⟨[(((2023 : Int), 9), [⟨⟨2023, 9, 15⟩, (85 : ℚ) / 2, "coffee", Repeat.none⟩])],
          ⟨2023, 9, 20⟩⟩ (monthKey ⟨2023, 9, 15⟩) =
      sortTx (get_transactions ⟨[], ⟨2023, 9, 20⟩⟩ (monthKey ⟨2023, 9, 15⟩) ++
        [⟨⟨2023, 9, 15⟩, (85 : ℚ) / 2, "coffee", Repeat.none⟩]) ∧
    (⟨["2023-09"], ⟨2023, 9, 1⟩, some 0, some 0,
        [⟨⟨2023, 9, 15⟩, (85 : ℚ) / 2, "coffee", Repeat.none⟩],
        "Added entry successfully", ActionState.normal⟩ : App).state = ActionState.normal :=
  c1_add_stores_amount_unnegated
    ⟨[], ⟨2023, 9, 1⟩, some 0, some 0, [], "", ActionState.normal⟩
    ⟨[], ⟨2023, 9, 20⟩⟩ "2023-09-15" "42.50" "coffee" ⟨2023, 9, 15⟩ ((85 : ℚ) / 2)
    ⟨["2023-09"], ⟨2023, 9, 1⟩, some 0, some 0,
      [⟨⟨2023, 9, 15⟩, (85 : ℚ) / 2, "coffee", Repeat.none⟩],
      "Added entry successfully", ActionState.normal⟩
    ⟨[(((2023 : Int), 9), [⟨⟨2023, 9, 15⟩, (85 : ℚ) / 2, "coffee", Repeat.none⟩])],
      ⟨2023, 9, 20⟩⟩
    rfl (by decide) (by decide) (by with_unfolding_all rfl)
    (by with_unfolding_all rfl)
